import Mathlib

/-!
Verification of the filename-decoding / index-building layer of the
Basmati Intelligence Portal dashboard (`app.py`).

Python strings are modelled as `List Char` (`Str`), Python dictionaries as
total functions into `Option`, and the filesystem interaction of each index
builder as an `Option (List Str)` argument: `none` models a missing
directory, `some files` the result of `os.listdir`.

The three index builders embedded here are, in source order:
  - `build_file_dict_from_csv`   (app.py lines 16-49),
  - `build_file_dict_from_folder` (app.py lines 54-97),
  - `build_quality_dicts`        (app.py lines 102-152).
-/

/-- A Python string, modelled as its list of characters. -/
abbrev Str := List Char

/-- `strLit s` is the `Str` denoted by a Lean string literal. -/
def strLit (s : String) : Str := s.toList

/-- Python `s.split(sep)` for a one-character separator `sep`.
Always returns a nonempty list; `''.split(sep) == ['']`. -/
def pySplit (sep : Char) : Str → List Str
  | [] => [[]]
  | c :: rest =>
    if c = sep then [] :: pySplit sep rest
    else
      match pySplit sep rest with
      | [] => [[c]]
      | t :: ts => (c :: t) :: ts

/-- Python `sep.join(parts)` for a one-character separator. -/
def pyJoin (sep : Char) : List Str → Str
  | [] => []
  | [t] => t
  | t :: ts => t ++ sep :: pyJoin sep ts

/-- Fuel-indexed scan of Python `s.replace(old, new)`; the fuel dominates the
length of the string, so with fuel `s.length` the zero-fuel branch is never
reached (each step consumes at least one character). -/
def pyReplaceAllGo (old new : Str) : Nat → Str → Str
  | _, [] => []
  | 0, s => s
  | fuel + 1, c :: rest =>
    if old.isPrefixOf (c :: rest) ∧ old ≠ [] then
      new ++ pyReplaceAllGo old new fuel (List.drop old.length (c :: rest))
    else
      c :: pyReplaceAllGo old new fuel rest

/-- Python `s.replace(old, new)` (all occurrences, scanning left to right). -/
def pyReplaceAll (old new s : Str) : Str := pyReplaceAllGo old new s.length s

/-- Python `s.replace(old, new, 1)`: replace the leftmost occurrence only. -/
def pyReplaceOnce (old new : Str) : Str → Str
  | [] => []
  | c :: rest =>
    if old.isPrefixOf (c :: rest) ∧ old ≠ [] then
      new ++ List.drop old.length (c :: rest)
    else
      c :: pyReplaceOnce old new rest

/-- Python `s.strip()`: drop whitespace from both ends. -/
def pyStrip (s : Str) : Str :=
  ((s.dropWhile Char.isWhitespace).reverse.dropWhile Char.isWhitespace).reverse

/-- Python `s.endswith(suffix)`. -/
def pyEndsWith (suffix s : Str) : Bool := List.isSuffixOf suffix s

/-- Python `s.lower()`. -/
def pyLower (s : Str) : Str := s.map Char.toLower

/-- Python `os.path.join(folder, filename)` for a relative filename. -/
def osPathJoin (folder filename : Str) : Str := folder ++ '/' :: filename

/-- `filename.split(".")[0]`: the stem each builder tokenizes
(app.py lines 36, 75, 130). -/
def stem (filename : Str) : Str := (pySplit '.' filename).headI

/-- `filename.split(".")[0].split("_")`: the underscore tokens of the stem. -/
def tokensOf (filename : Str) : List Str := pySplit '_' (stem filename)

/-- The decoded identity of one file: `(State, District, Block, VariableLabel)`. -/
structure Decoded where
  state : Str
  district : Str
  block : Str
  var_label : Str
deriving DecidableEq, Repr

/-- The literal `"since"`. -/
def sinceTok : Str := strLit "since"

/-- The literal `"Temp"`. -/
def tempTok : Str := strLit "Temp"

/-- The literal `"Temperature"`. -/
def temperatureTok : Str := strLit "Temperature"

/-- app.py lines 84-89: if the variable segment has at least two sub-tokens
and the last one starts with `"since"`, split it off and fold the year into
the label `f"{var_name} since {year_str}"`; otherwise rejoin with `"_"`. -/
def sinceSplit (var_parts : List Str) : Str :=
  if 2 ≤ var_parts.length ∧ sinceTok.isPrefixOf (var_parts.getLastD []) = true then
    let var_name := pyJoin '_' var_parts.dropLast
    let year_str := pyStrip (pyReplaceAll sinceTok [] (var_parts.getLastD []))
    var_name ++ strLit " since " ++ year_str
  else
    pyJoin '_' var_parts

/-- app.py lines 91-92: if the label starts with `"Temp"`, replace the first
occurrence of `"Temp"` with `"Temperature"`. -/
def tempFix (var_label : Str) : Str :=
  if tempTok.isPrefixOf var_label = true then
    pyReplaceOnce tempTok temperatureTok var_label
  else
    var_label

/-- The per-filename decode of `build_file_dict_from_csv`
(app.py lines 36-44): tokens 0-2 are State, District, Block, and the raw
`"_"`-rejoined remainder is the variable; fewer than 4 tokens is a skip. -/
def decode_csv (filename : Str) : Option Decoded :=
  match tokensOf filename with
  | s :: d :: b :: v0 :: vrest => some ⟨s, d, b, pyJoin '_' (v0 :: vrest)⟩
  | _ => none

/-- The per-filename decode of `build_file_dict_from_folder`
(app.py lines 75-92): like the CSV decode but with the `since` split and the
`Temp` → `Temperature` relabel applied to the variable segment. -/
def decode_folder (filename : Str) : Option Decoded :=
  match tokensOf filename with
  | s :: d :: b :: v0 :: vrest => some ⟨s, d, b, tempFix (sinceSplit (v0 :: vrest))⟩
  | _ => none

/-- One quality-image entry: a base entry (exactly 4 tokens) or a
percentile entry (5 or more tokens). -/
inductive QEntry where
  | base (state district block quality_param : Str)
  | perc (state district block quality_param percentile : Str)
deriving DecidableEq, Repr

/-- The per-filename decode of `build_quality_dicts` (app.py lines 130-148):
exactly 4 tokens gives a base entry keyed by token 3; 5 or more tokens gives
a percentile entry keyed by tokens 3 and 4, the rest of the tokens unused. -/
def decode_quality (filename : Str) : Option QEntry :=
  match tokensOf filename with
  | [s, d, b, q] => some (.base s d b q)
  | s :: d :: b :: q :: p :: _ => some (.perc s d b q p)
  | _ => none

/-- The composite `f"{district}-{block}"` key (app.py lines 46, 94, 138). -/
def districtBlock (district block : Str) : Str := district ++ '-' :: block

/-- A three-level index `state → district_block → variable → path`,
modelled extensionally. -/
def Index := Str → Str → Str → Option Str

/-- The empty index (`{}` in app.py lines 24, 63, 116). -/
def emptyIndex : Index := fun _ _ _ => none

/-- `d.setdefault(s, {}).setdefault(db, {})[v] = path`: dictionary insertion,
overwriting any previous path at the same key triple. -/
def insertIndex (d : Index) (s db v path : Str) : Index :=
  fun s' db' v' => if s' = s ∧ db' = db ∧ v' = v then some path else d s' db' v'

/-- A four-level percentile index
`state → district_block → quality_param → percentile → path`. -/
def PercIndex := Str → Str → Str → Str → Option Str

/-- The empty percentile index (`{}` in app.py line 117). -/
def emptyPerc : PercIndex := fun _ _ _ _ => none

/-- Insertion into the percentile index (app.py line 148). -/
def insertPerc (d : PercIndex) (s db q p path : Str) : PercIndex :=
  fun s' db' q' p' =>
    if s' = s ∧ db' = db ∧ q' = q ∧ p' = p then some path else d s' db' q' p'

/-- The loop body of `build_file_dict_from_csv` (app.py lines 34-47). -/
def processFile_csv (folder : Str) (d : Index) (filename : Str) : Index :=
  match decode_csv filename with
  | none => d
  | some dec =>
      insertIndex d dec.state (districtBlock dec.district dec.block)
        dec.var_label (osPathJoin folder filename)

/-- The loop body of `build_file_dict_from_folder` (app.py lines 73-95). -/
def processFile_folder (folder : Str) (d : Index) (filename : Str) : Index :=
  match decode_folder filename with
  | none => d
  | some dec =>
      insertIndex d dec.state (districtBlock dec.district dec.block)
        dec.var_label (osPathJoin folder filename)

/-- The loop body of `build_quality_dicts` (app.py lines 128-148). -/
def processFile_quality (folder : Str) (acc : Index × PercIndex)
    (filename : Str) : Index × PercIndex :=
  match decode_quality filename with
  | none => acc
  | some (.base s d b q) =>
      (insertIndex acc.1 s (districtBlock d b) q (osPathJoin folder filename), acc.2)
  | some (.perc s d b q p) =>
      (acc.1, insertPerc acc.2 s (districtBlock d b) q p (osPathJoin folder filename))

/-- `build_file_dict_from_csv` (app.py lines 16-49). `listing` is `none` when
the folder does not exist, otherwise the directory listing; the result is
`none` on a missing folder or when no `.csv` file is present. -/
def build_file_dict_from_csv (folder : Str) (listing : Option (List Str)) :
    Option Index :=
  match listing with
  | none => none
  | some files =>
      let csv_files := files.filter (fun f => pyEndsWith (strLit ".csv") f)
      if csv_files.isEmpty then none
      else some (csv_files.foldl (processFile_csv folder) emptyIndex)

/-- `build_file_dict_from_folder` (app.py lines 54-97): same control flow with
the `.png` extension filter and the folder decode. -/
def build_file_dict_from_folder (folder : Str) (listing : Option (List Str)) :
    Option Index :=
  match listing with
  | none => none
  | some files =>
      let png_files := files.filter (fun f => pyEndsWith (strLit ".png") f)
      if png_files.isEmpty then none
      else some (png_files.foldl (processFile_folder folder) emptyIndex)

/-- `build_quality_dicts` (app.py lines 102-152): case-insensitive
`.jpg`/`.png` filter, `(None, None)` on a missing folder or empty listing,
otherwise the pair of base and percentile dictionaries. -/
def build_quality_dicts (folder : Str) (listing : Option (List Str)) :
    Option Index × Option PercIndex :=
  match listing with
  | none => (none, none)
  | some files =>
      let quality_files := files.filter fun f =>
        pyEndsWith (strLit ".jpg") (pyLower f) || pyEndsWith (strLit ".png") (pyLower f)
      if quality_files.isEmpty then (none, none)
      else
        let res := quality_files.foldl (processFile_quality folder) (emptyIndex, emptyPerc)
        (some res.1, some res.2)

/-- Look up a key triple in an optional index. -/
def lookupIdx (d : Option Index) (s db v : Str) : Option Str :=
  match d with
  | none => none
  | some d => d s db v

/-- Modelled from the spec: the Splitter/export stage that produces the
filenames is not part of `src/` (only the spec describes it), so its
encoder is taken from the spec's wire format `State_District_Block_Variable.ext`:
the four descriptor fields joined by `_`, followed by the extension. -/
def encode (state district block var_label ext : Str) : Str :=
  state ++ '_' :: district ++ '_' :: block ++ '_' :: var_label ++ '.' :: ext

/-- `pySplit` never returns the empty list (Python `split` always yields at
least one field). -/
theorem pySplit_ne_nil (sep : Char) (l : Str) : pySplit sep l ≠ [] := by
  induction l with
  | nil => simp [pySplit]
  | cons c rest ih =>
    rw [pySplit]
    split
    · simp
    · split
      · simp
      · simp

/-- The first field of `pySplit` is the longest separator-free initial
segment of the string. -/
theorem headI_pySplit (sep : Char) (l : Str) :
    (pySplit sep l).headI = l.takeWhile (fun c => c != sep) := by
  induction l with
  | nil => rfl
  | cons c rest ih =>
    rw [pySplit, List.takeWhile_cons]
    by_cases hc : c = sep
    · simp [hc]
    · rw [if_neg hc]
      cases h : pySplit sep rest with
      | nil => exact absurd h (pySplit_ne_nil sep rest)
      | cons t ts =>
        rw [h] at ih
        simp only [List.headI] at ih ⊢
        simp [hc, ih]

/-- Splitting a separator-free string yields that string as the only field. -/
theorem pySplit_of_not_mem (sep : Char) (x : Str) (h : sep ∉ x) :
    pySplit sep x = [x] := by
  induction x with
  | nil => rfl
  | cons c rest ih =>
    have hc : ¬ c = sep := by
      rintro rfl
      exact h (List.mem_cons_self c rest)
    have hrest : sep ∉ rest := fun hm => h (List.mem_cons_of_mem _ hm)
    rw [pySplit, if_neg hc, ih hrest]

/-- Splitting peels off a separator-free first field before the first
separator. -/
theorem pySplit_append_cons (sep : Char) (x y : Str) (h : sep ∉ x) :
    pySplit sep (x ++ sep :: y) = x :: pySplit sep y := by
  induction x with
  | nil => simp [pySplit]
  | cons c rest ih =>
    have hc : ¬ c = sep := by
      rintro rfl
      exact h (List.mem_cons_self c rest)
    have hrest : sep ∉ rest := fun hm => h (List.mem_cons_of_mem _ hm)
    rw [List.cons_append, pySplit, if_neg hc, ih hrest]

/-- If the first character of the pattern never occurs in the string, the
replacement scan leaves the string unchanged, whatever the fuel. -/
theorem pyReplaceAllGo_of_head_not_mem (a : Char) (old2 new s : Str)
    (fuel : Nat) (h : a ∉ s) : pyReplaceAllGo (a :: old2) new fuel s = s := by
  induction s generalizing fuel with
  | nil => cases fuel <;> rfl
  | cons c rest ih =>
    cases fuel with
    | zero => rfl
    | succ fuel =>
      have hac : ¬ (a :: old2).isPrefixOf (c :: rest) = true := by
        intro hp
        simp only [List.isPrefixOf, Bool.and_eq_true, beq_iff_eq] at hp
        exact h (hp.1 ▸ List.mem_cons_self c rest)
      have hrest : a ∉ rest := fun hm => h (List.mem_cons_of_mem _ hm)
      rw [pyReplaceAllGo, if_neg (fun hcond => hac hcond.1), ih fuel hrest]

/-- `"since" + year` with a digit-only year loses exactly the `"since"`
under Python's `replace("since", "")`. -/
theorem pyReplaceAll_since_digits (year : Str)
    (h : ∀ c ∈ year, c.isDigit = true) :
    pyReplaceAll sinceTok [] (sinceTok ++ year) = year := by
  have hs : 's' ∉ year := by
    intro hmem
    exact absurd (h 's' hmem) (by decide)
  have hlen : (sinceTok ++ year).length = year.length + 4 + 1 := by
    simp [sinceTok, strLit]
  have hpre : sinceTok.isPrefixOf (sinceTok ++ year) = true :=
    List.isPrefixOf_iff_prefix.mpr (List.prefix_append _ _)
  show pyReplaceAllGo sinceTok [] (sinceTok ++ year).length (sinceTok ++ year) = year
  rw [hlen]
  show pyReplaceAllGo sinceTok [] (year.length + 4 + 1)
    ('s' :: (strLit "ince" ++ year)) = year
  rw [pyReplaceAllGo, if_pos ⟨hpre, by decide⟩]
  show [] ++ pyReplaceAllGo sinceTok [] (year.length + 4) year = year
  rw [List.nil_append]
  exact pyReplaceAllGo_of_head_not_mem 's' (strLit "ince") [] year _ hs

/-- `strip()` is the identity on whitespace-free strings. -/
theorem pyStrip_of_no_whitespace (s : Str)
    (h : ∀ c ∈ s, c.isWhitespace = false) : pyStrip s = s := by
  have key : ∀ t : Str, (∀ c ∈ t, c.isWhitespace = false) →
      t.dropWhile Char.isWhitespace = t := by
    intro t ht
    cases t with
    | nil => rfl
    | cons c rest => simp [List.dropWhile_cons, ht c (by simp)]
  unfold pyStrip
  rw [key s h, key s.reverse (by intro c hc; exact h c (List.mem_reverse.mp hc)),
    List.reverse_reverse]

/-- Filenames with fewer than 4 underscore tokens decode to `none` in all
three modes. -/
theorem decodes_none_of_short (f : Str) (h : (tokensOf f).length < 4) :
    decode_csv f = none ∧ decode_folder f = none ∧ decode_quality f = none := by
  rcases ht : tokensOf f with _ | ⟨s, _ | ⟨d, _ | ⟨b, _ | ⟨v, r⟩⟩⟩⟩
  · exact ⟨by simp [decode_csv, ht], by simp [decode_folder, ht],
      by simp [decode_quality, ht]⟩
  · exact ⟨by simp [decode_csv, ht], by simp [decode_folder, ht],
      by simp [decode_quality, ht]⟩
  · exact ⟨by simp [decode_csv, ht], by simp [decode_folder, ht],
      by simp [decode_quality, ht]⟩
  · exact ⟨by simp [decode_csv, ht], by simp [decode_folder, ht],
      by simp [decode_quality, ht]⟩
  · rw [ht] at h
    simp at h
    omega

/-- C1 counterexample: `Punjab_Amritsar_Ajnala_MaxTemp_since2000.png` decodes
with VariableLabel `"MaxTemp since 2000"`, not `"MaxTemperature since 2000"`:
the label starts with `Max`, so the `Temp` → `Temperature` rewrite of
app.py lines 91-92 does not fire. -/
theorem maxTemp_scenario_counterexample :
    decode_folder (strLit "Punjab_Amritsar_Ajnala_MaxTemp_since2000.png") =
      some ⟨strLit "Punjab", strLit "Amritsar", strLit "Ajnala",
        strLit "MaxTemp since 2000"⟩ ∧
    (decode_folder (strLit "Punjab_Amritsar_Ajnala_MaxTemp_since2000.png")).map
        Decoded.var_label ≠ some (strLit "MaxTemperature since 2000") := by
  decide

/-- C1 amended: decoding `Punjab_Amritsar_Ajnala_MaxTemp_since2000.png` with
the image-index builder yields State=Punjab, District=Amritsar, Block=Ajnala,
and VariableLabel `"MaxTemp since 2000"`; the built index holds the file's
path under exactly those keys. -/
theorem maxTemp_scenario_decode :
    decode_folder (strLit "Punjab_Amritsar_Ajnala_MaxTemp_since2000.png") =
      some ⟨strLit "Punjab", strLit "Amritsar", strLit "Ajnala",
        strLit "MaxTemp since 2000"⟩ ∧
    lookupIdx
      (build_file_dict_from_folder (strLit "Market")
        (some [strLit "Punjab_Amritsar_Ajnala_MaxTemp_since2000.png"]))
      (strLit "Punjab") (strLit "Amritsar-Ajnala") (strLit "MaxTemp since 2000") =
      some (osPathJoin (strLit "Market")
        (strLit "Punjab_Amritsar_Ajnala_MaxTemp_since2000.png")) := by
  decide

/-- C2 counterexample: the CSV-mode builder does not apply the image-mode
decoder steps. On `A_B_C_Temp_since2000.csv` it keys the file under the raw
variable `"Temp_since2000"`, while the image-mode steps would produce
`"Temperature since 2000"`. -/
theorem csv_mode_relabel_counterexample :
    decode_csv (strLit "A_B_C_Temp_since2000.csv") =
      some ⟨strLit "A", strLit "B", strLit "C", strLit "Temp_since2000"⟩ ∧
    tempFix (sinceSplit [strLit "Temp", strLit "since2000"]) =
      strLit "Temperature since 2000" ∧
    strLit "Temp_since2000" ≠ strLit "Temperature since 2000" := by
  decide

/-- C2 amended: for every CSV filename with at least 4 underscore tokens, the
CSV-mode index builder keys the file under the raw `"_"`-rejoined variable
segment, applying neither the `since` split nor the `Temp` → `Temperature`
relabel (app.py lines 41-44 have no such steps). -/
theorem csv_mode_raw_variable (f s d b v0 : Str) (vrest : List Str)
    (h : tokensOf f = s :: d :: b :: v0 :: vrest) :
    decode_csv f = some ⟨s, d, b, pyJoin '_' (v0 :: vrest)⟩ := by
  simp [decode_csv, h]

/-- C2 amended, witness at `A_B_C_Temp_since2000.csv`. -/
theorem csv_mode_raw_variable_witness :
    decode_csv (strLit "A_B_C_Temp_since2000.csv") =
      some ⟨strLit "A", strLit "B", strLit "C",
        pyJoin '_' [strLit "Temp", strLit "since2000"]⟩ :=
  csv_mode_raw_variable (strLit "A_B_C_Temp_since2000.csv")
    (strLit "A") (strLit "B") (strLit "C") (strLit "Temp")
    [strLit "since2000"] (by decide)

/-- C3 counterexample: the claim quantifies over all filenames with at least
4 tokens, but app.py line 84 also requires at least two sub-tokens in the
variable segment. On `A_B_C_since1990.png` the last (and only) sub-token of
the variable segment starts with `since`, yet no split happens: the label is
`"since1990"`, not the `"<name> since 1990"` form (here `" since 1990"`)
the claim predicts. -/
theorem since_split_single_token_counterexample :
    sinceTok.isPrefixOf (strLit "since1990") = true ∧
    decode_folder (strLit "A_B_C_since1990.png") =
      some ⟨strLit "A", strLit "B", strLit "C", strLit "since1990"⟩ ∧
    strLit "since1990" ≠ strLit " since 1990" := by
  decide

/-- C3 amended: for every filename whose stem has at least 5 underscore
tokens (so the variable segment has at least two sub-tokens) and whose last
sub-token is `since` followed by digits, the image-index builder splits that
sub-token off: the remaining sub-tokens rejoined with `_` become the variable
name and the digits are appended as `" since <year>"` to form the label, to
which only the final `Temp` relabel is then applied. -/
theorem since_split_spec (f s d b : Str) (vp : List Str) (year : Str)
    (ht : tokensOf f = s :: d :: b :: (vp ++ [sinceTok ++ year]))
    (h1 : vp ≠ []) (h2 : ∀ c ∈ year, c.isDigit = true) :
    sinceSplit (vp ++ [sinceTok ++ year]) =
      pyJoin '_' vp ++ strLit " since " ++ year ∧
    decode_folder f =
      some ⟨s, d, b, tempFix (pyJoin '_' vp ++ strLit " since " ++ year)⟩ := by
  have hws : ∀ c ∈ year, c.isWhitespace = false := by
    intro c hc
    have hd := h2 c hc
    cases hcw : c.isWhitespace
    · rfl
    · exfalso
      simp only [Char.isWhitespace, Bool.or_eq_true, decide_eq_true_eq] at hcw
      simp only [Char.isDigit, Bool.and_eq_true, decide_eq_true_eq] at hd
      obtain ⟨h0, h9⟩ := hd
      rcases hcw with ((h | h) | h) | h <;> subst h <;> exact absurd h0 (by decide)
  have hmain : sinceSplit (vp ++ [sinceTok ++ year]) =
      pyJoin '_' vp ++ strLit " since " ++ year := by
    unfold sinceSplit
    rw [if_pos]
    · rw [List.dropLast_concat]
      have hg : (vp ++ [sinceTok ++ year]).getLastD [] = sinceTok ++ year := by
        simp
      rw [hg, pyReplaceAll_since_digits year h2, pyStrip_of_no_whitespace year hws]
    · constructor
      · have := List.length_pos.mpr h1
        simp
        omega
      · have hg : (vp ++ [sinceTok ++ year]).getLastD [] = sinceTok ++ year := by
          simp
        rw [hg]
        exact List.isPrefixOf_iff_prefix.mpr (List.prefix_append _ _)
  refine ⟨hmain, ?_⟩
  rcases vp with _ | ⟨v0, vp'⟩
  · exact absurd rfl h1
  · rw [List.cons_append] at ht
    simp only [decode_folder, ht]
    rw [← List.cons_append, hmain]

/-- C3 amended, witness at `Punjab_Amritsar_Ajnala_Rainfall_since1990.png`. -/
theorem since_split_spec_witness :
    sinceSplit [strLit "Rainfall", sinceTok ++ strLit "1990"] =
      pyJoin '_' [strLit "Rainfall"] ++ strLit " since " ++ strLit "1990" ∧
    decode_folder (strLit "Punjab_Amritsar_Ajnala_Rainfall_since1990.png") =
      some ⟨strLit "Punjab", strLit "Amritsar", strLit "Ajnala",
        tempFix (pyJoin '_' [strLit "Rainfall"] ++ strLit " since " ++
          strLit "1990")⟩ :=
  since_split_spec (strLit "Punjab_Amritsar_Ajnala_Rainfall_since1990.png")
    (strLit "Punjab") (strLit "Amritsar") (strLit "Ajnala")
    [strLit "Rainfall"] (strLit "1990") (by decide) (by decide) (by decide)

/-- C4: a filename whose stem has fewer than 4 underscore tokens is skipped
by all three index builders: the per-file step leaves the accumulated
dictionaries unchanged, and a scan over a file list containing it produces
the same index as the scan without it. -/
theorem short_filename_skipped (fol f : Str) (d : Index) (acc : Index × PercIndex)
    (xs ys : List Str) (h : (tokensOf f).length < 4) :
    processFile_csv fol d f = d ∧ processFile_folder fol d f = d ∧
    processFile_quality fol acc f = acc ∧
    (xs ++ f :: ys).foldl (processFile_csv fol) d =
      (xs ++ ys).foldl (processFile_csv fol) d ∧
    (xs ++ f :: ys).foldl (processFile_folder fol) d =
      (xs ++ ys).foldl (processFile_folder fol) d ∧
    (xs ++ f :: ys).foldl (processFile_quality fol) acc =
      (xs ++ ys).foldl (processFile_quality fol) acc := by
  obtain ⟨hcsv, hfold, hqual⟩ := decodes_none_of_short f h
  have p1 : ∀ d' : Index, processFile_csv fol d' f = d' := by
    intro d'
    simp [processFile_csv, hcsv]
  have p2 : ∀ d' : Index, processFile_folder fol d' f = d' := by
    intro d'
    simp [processFile_folder, hfold]
  have p3 : ∀ a : Index × PercIndex, processFile_quality fol a f = a := by
    intro a
    simp [processFile_quality, hqual]
  refine ⟨p1 d, p2 d, p3 acc, ?_, ?_, ?_⟩ <;>
    simp [List.foldl_append, List.foldl_cons, p1, p2, p3]

/-- C4, witness at `a_b.csv` (2 tokens). -/
theorem short_filename_skipped_witness :
    (tokensOf (strLit "a_b.csv")).length < 4 ∧
    (processFile_csv (strLit "Met") emptyIndex (strLit "a_b.csv") = emptyIndex ∧
     processFile_folder (strLit "Met") emptyIndex (strLit "a_b.csv") = emptyIndex ∧
     processFile_quality (strLit "Met") (emptyIndex, emptyPerc) (strLit "a_b.csv") =
       (emptyIndex, emptyPerc) ∧
     ([] ++ strLit "a_b.csv" :: []).foldl (processFile_csv (strLit "Met")) emptyIndex =
       ([] ++ []).foldl (processFile_csv (strLit "Met")) emptyIndex ∧
     ([] ++ strLit "a_b.csv" :: []).foldl (processFile_folder (strLit "Met")) emptyIndex =
       ([] ++ []).foldl (processFile_folder (strLit "Met")) emptyIndex ∧
     ([] ++ strLit "a_b.csv" :: []).foldl (processFile_quality (strLit "Met"))
       (emptyIndex, emptyPerc) =
       ([] ++ []).foldl (processFile_quality (strLit "Met")) (emptyIndex, emptyPerc)) :=
  ⟨by decide, short_filename_skipped (strLit "Met") (strLit "a_b.csv") emptyIndex
    (emptyIndex, emptyPerc) [] [] (by decide)⟩

/-- C5: the quality builder dispatches on the token count: exactly 4 tokens
inserts into the base dictionary keyed by token 3; 5 or more tokens inserts
into the percentile dictionary keyed by token 3 and token 4; the tokens
beyond index 4 (`rest`) appear in no key of the conclusion. -/
theorem quality_token_dispatch (fol f s d b q p : Str) (rest : List Str)
    (bd : Index) (pd : PercIndex) :
    (tokensOf f = [s, d, b, q] →
      processFile_quality fol (bd, pd) f =
        (insertIndex bd s (districtBlock d b) q (osPathJoin fol f), pd)) ∧
    (tokensOf f = s :: d :: b :: q :: p :: rest →
      processFile_quality fol (bd, pd) f =
        (bd, insertPerc pd s (districtBlock d b) q p (osPathJoin fol f))) := by
  constructor
  · intro h
    simp [processFile_quality, decode_quality, h]
  · intro h
    simp [processFile_quality, decode_quality, h]

/-- C5, witness at a 4-token and a 6-token quality filename. -/
theorem quality_token_dispatch_witness :
    processFile_quality (strLit "Quality") (emptyIndex, emptyPerc)
      (strLit "P_D_B_Chalky.png") =
      (insertIndex emptyIndex (strLit "P") (districtBlock (strLit "D") (strLit "B"))
        (strLit "Chalky") (osPathJoin (strLit "Quality") (strLit "P_D_B_Chalky.png")),
       emptyPerc) ∧
    processFile_quality (strLit "Quality") (emptyIndex, emptyPerc)
      (strLit "P_D_B_Chalky_90_extra.png") =
      (emptyIndex,
       insertPerc emptyPerc (strLit "P") (districtBlock (strLit "D") (strLit "B"))
        (strLit "Chalky") (strLit "90")
        (osPathJoin (strLit "Quality") (strLit "P_D_B_Chalky_90_extra.png"))) :=
  ⟨(quality_token_dispatch (strLit "Quality") (strLit "P_D_B_Chalky.png")
      (strLit "P") (strLit "D") (strLit "B") (strLit "Chalky") (strLit "90") []
      emptyIndex emptyPerc).1 (by decide),
   (quality_token_dispatch (strLit "Quality") (strLit "P_D_B_Chalky_90_extra.png")
      (strLit "P") (strLit "D") (strLit "B") (strLit "Chalky") (strLit "90")
      [strLit "extra"] emptyIndex emptyPerc).2 (by decide)⟩

/-- C6: a missing directory (`none` listing) and a listing without any file
matching the builder's own extension set both make that builder return an
empty/absent index (`none`, or `(none, none)` for the quality builder); each
builder's listing is quantified independently, with only its own
no-matching-extension hypothesis, and the embedding is total, so no
exception can propagate. -/
theorem missing_or_empty_folder_none (fol : Str)
    (files_c files_p files_q : List Str)
    (hc : ∀ f ∈ files_c, pyEndsWith (strLit ".csv") f = false)
    (hp : ∀ f ∈ files_p, pyEndsWith (strLit ".png") f = false)
    (hq : ∀ f ∈ files_q,
      (pyEndsWith (strLit ".jpg") (pyLower f) ||
       pyEndsWith (strLit ".png") (pyLower f)) = false) :
    build_file_dict_from_csv fol none = none ∧
    build_file_dict_from_folder fol none = none ∧
    build_quality_dicts fol none = (none, none) ∧
    build_file_dict_from_csv fol (some files_c) = none ∧
    build_file_dict_from_folder fol (some files_p) = none ∧
    build_quality_dicts fol (some files_q) = (none, none) := by
  have h1 : files_c.filter (fun f => pyEndsWith (strLit ".csv") f) = [] :=
    List.filter_eq_nil_iff.mpr (fun a ha => by simp [hc a ha])
  have h2 : files_p.filter (fun f => pyEndsWith (strLit ".png") f) = [] :=
    List.filter_eq_nil_iff.mpr (fun a ha => by simp [hp a ha])
  have h3 : files_q.filter (fun f =>
      pyEndsWith (strLit ".jpg") (pyLower f) ||
      pyEndsWith (strLit ".png") (pyLower f)) = [] :=
    List.filter_eq_nil_iff.mpr (fun a ha => by simp [hq a ha])
  refine ⟨rfl, rfl, rfl, ?_, ?_, ?_⟩
  · simp [build_file_dict_from_csv, h1]
  · simp [build_file_dict_from_folder, h2]
  · simp [build_quality_dicts, h3]

/-- C6, witness: the folder builder sees a listing holding only a `.csv`
file (no `.png`), the CSV builder one holding only a `.png`, and the quality
builder one holding only a `.txt`; each returns its absent index. -/
theorem missing_or_empty_folder_none_witness :
    build_file_dict_from_csv (strLit "Met") none = none ∧
    build_file_dict_from_folder (strLit "Met") none = none ∧
    build_quality_dicts (strLit "Met") none = (none, none) ∧
    build_file_dict_from_csv (strLit "Met") (some [strLit "y.png"]) = none ∧
    build_file_dict_from_folder (strLit "Met") (some [strLit "x.csv"]) = none ∧
    build_quality_dicts (strLit "Met") (some [strLit "notes.txt"]) = (none, none) :=
  missing_or_empty_folder_none (strLit "Met")
    [strLit "y.png"] [strLit "x.csv"] [strLit "notes.txt"]
    (by decide) (by decide) (by decide)

/-- C7: for every filename with at least 4 underscore tokens, each of the
three per-filename decoders yields a result (`isSome`); every decoder in the
embedding is a total function, so no token contents can raise. -/
theorem decode_total_of_four_tokens (f : Str) (h : 4 ≤ (tokensOf f).length) :
    (decode_csv f).isSome = true ∧ (decode_folder f).isSome = true ∧
    (decode_quality f).isSome = true := by
  rcases ht : tokensOf f with _ | ⟨s, _ | ⟨d, _ | ⟨b, _ | ⟨v, _ | ⟨p, r⟩⟩⟩⟩⟩
  · rw [ht] at h
    simp at h
  · rw [ht] at h
    simp at h
  · rw [ht] at h
    simp at h
  · rw [ht] at h
    simp at h
  · exact ⟨by simp [decode_csv, ht], by simp [decode_folder, ht],
      by simp [decode_quality, ht]⟩
  · exact ⟨by simp [decode_csv, ht], by simp [decode_folder, ht],
      by simp [decode_quality, ht]⟩

/-- C7, witness at `Punjab_Amritsar_Ajnala_Rainfall.csv`. -/
theorem decode_total_of_four_tokens_witness :
    4 ≤ (tokensOf (strLit "Punjab_Amritsar_Ajnala_Rainfall.csv")).length ∧
    ((decode_csv (strLit "Punjab_Amritsar_Ajnala_Rainfall.csv")).isSome = true ∧
     (decode_folder (strLit "Punjab_Amritsar_Ajnala_Rainfall.csv")).isSome = true ∧
     (decode_quality (strLit "Punjab_Amritsar_Ajnala_Rainfall.csv")).isSome = true) :=
  ⟨by decide, decode_total_of_four_tokens
    (strLit "Punjab_Amritsar_Ajnala_Rainfall.csv") (by decide)⟩

/-- C8: when the decoded label begins with `Temp`, `tempFix` replaces exactly
that leading occurrence with `Temperature` and keeps the remainder of the
label (hence any later `Temp` occurrence) unchanged; a label not beginning
with `Temp` is returned unmodified. -/
theorem tempFix_first_occurrence (lbl : Str) :
    (tempTok.isPrefixOf lbl = true →
      tempFix lbl = temperatureTok ++ lbl.drop tempTok.length) ∧
    (tempTok.isPrefixOf lbl = false → tempFix lbl = lbl) := by
  constructor
  · intro h
    unfold tempFix
    rw [if_pos h]
    cases lbl with
    | nil => exact absurd h (by decide)
    | cons c rest =>
      unfold pyReplaceOnce
      rw [if_pos ⟨h, by decide⟩]
  · intro h
    unfold tempFix
    rw [if_neg (by simp [h])]

/-- C8, witness: `TempXTemp` keeps its second `Temp`; `Rainfall` is
unmodified. -/
theorem tempFix_first_occurrence_witness :
    tempFix (strLit "TempXTemp") =
      temperatureTok ++ (strLit "TempXTemp").drop tempTok.length ∧
    tempFix (strLit "Rainfall") = strLit "Rainfall" :=
  ⟨(tempFix_first_occurrence (strLit "TempXTemp")).1 (by decide),
   (tempFix_first_occurrence (strLit "Rainfall")).2 (by decide)⟩

/-- C9 counterexample: the round-trip fails both ways at the descriptor
`(Punjab, Amritsar, Ajnala, "Temperature")`, a filename the system's own
Splitter convention produces: decoding its encoding yields the label
`"Temperatureerature"` (the `Temp` prefix of `Temperature` is itself
rewritten), and re-encoding the decoded descriptor does not restore the
filename. -/
theorem roundtrip_counterexample :
    encode (strLit "Punjab") (strLit "Amritsar") (strLit "Ajnala")
      (strLit "Temperature") (strLit "png") =
      strLit "Punjab_Amritsar_Ajnala_Temperature.png" ∧
    decode_folder (strLit "Punjab_Amritsar_Ajnala_Temperature.png") =
      some ⟨strLit "Punjab", strLit "Amritsar", strLit "Ajnala",
        strLit "Temperatureerature"⟩ ∧
    strLit "Temperatureerature" ≠ strLit "Temperature" ∧
    encode (strLit "Punjab") (strLit "Amritsar") (strLit "Ajnala")
      (strLit "Temperatureerature") (strLit "png") ≠
      strLit "Punjab_Amritsar_Ajnala_Temperature.png" := by
  decide

/-- C9 amended: `decode(encode(x)) = x` holds for descriptors without a
percentile or since qualifier whose four fields contain neither `_` nor `.`
and whose variable does not begin with `Temp`; the `encode(decode(f)) = f`
direction fails on encoder-producible filenames (see the counterexample). -/
theorem decode_encode_roundtrip (s d b v ext : Str)
    (hs1 : '_' ∉ s) (hd1 : '_' ∉ d) (hb1 : '_' ∉ b) (hv1 : '_' ∉ v)
    (hs2 : '.' ∉ s) (hd2 : '.' ∉ d) (hb2 : '.' ∉ b) (hv2 : '.' ∉ v)
    (htemp : tempTok.isPrefixOf v = false) :
    decode_folder (encode s d b v ext) = some ⟨s, d, b, v⟩ := by
  have hX : '.' ∉ s ++ '_' :: (d ++ '_' :: (b ++ '_' :: v)) := by
    intro hmem
    simp only [List.mem_append, List.mem_cons] at hmem
    rcases hmem with h | h | h | h | h | h | h
    · exact hs2 h
    · exact absurd h (by decide)
    · exact hd2 h
    · exact absurd h (by decide)
    · exact hb2 h
    · exact absurd h (by decide)
    · exact hv2 h
  have hstem : stem (encode s d b v ext) = s ++ '_' :: (d ++ '_' :: (b ++ '_' :: v)) := by
    have hshape : encode s d b v ext =
        (s ++ '_' :: (d ++ '_' :: (b ++ '_' :: v))) ++ '.' :: ext := by
      simp [encode]
    unfold stem
    rw [hshape, pySplit_append_cons '.' _ ext hX]
    rfl
  have htok : tokensOf (encode s d b v ext) = [s, d, b, v] := by
    unfold tokensOf
    rw [hstem, pySplit_append_cons '_' s _ hs1, pySplit_append_cons '_' d _ hd1,
      pySplit_append_cons '_' b _ hb1, pySplit_of_not_mem '_' v hv1]
  have hsince : sinceSplit [v] = v := by
    unfold sinceSplit
    rw [if_neg]
    · rfl
    · rintro ⟨hlen, -⟩
      simp at hlen
  have hfix : tempFix v = v := by
    unfold tempFix
    rw [if_neg (by simp [htemp])]
  simp [decode_folder, htok, hsince, hfix]

/-- C9 amended, witness at `(Punjab, Amritsar, Ajnala, Rainfall)`. -/
theorem decode_encode_roundtrip_witness :
    decode_folder (encode (strLit "Punjab") (strLit "Amritsar") (strLit "Ajnala")
      (strLit "Rainfall") (strLit "png")) =
      some ⟨strLit "Punjab", strLit "Amritsar", strLit "Ajnala", strLit "Rainfall"⟩ :=
  decode_encode_roundtrip (strLit "Punjab") (strLit "Amritsar") (strLit "Ajnala")
    (strLit "Rainfall") (strLit "png") (by decide) (by decide) (by decide)
    (by decide) (by decide) (by decide) (by decide) (by decide) (by decide)

/-- C10: every builder tokenizes the substring of the filename strictly
before the first `.` (not merely without the final extension): the stem is
`takeWhile (· != '.')`, and `A.B_C_D_E.csv` therefore yields the single
token `A` and is skipped by all three builders. -/
theorem stem_first_dot (f fol : Str) (d : Index) (acc : Index × PercIndex) :
    stem f = f.takeWhile (fun c => c != '.') ∧
    tokensOf (strLit "A.B_C_D_E.csv") = [strLit "A"] ∧
    processFile_csv fol d (strLit "A.B_C_D_E.csv") = d ∧
    processFile_folder fol d (strLit "A.B_C_D_E.csv") = d ∧
    processFile_quality fol acc (strLit "A.B_C_D_E.csv") = acc := by
  obtain ⟨hc, hf, hq⟩ := decodes_none_of_short (strLit "A.B_C_D_E.csv") (by decide)
  exact ⟨headI_pySplit '.' f, by decide, by simp [processFile_csv, hc],
    by simp [processFile_folder, hf], by simp [processFile_quality, hq]⟩
